import Mathlib

/-!
Verification of the bombuscv capture/detect/record pipeline (src/main.py).

The development shallowly embeds the program: images are lists of rows of
natural-number pixel values, the OpenCV primitives called by the program
(absdiff, cvtColor, GaussianBlur, threshold, dilate, findContours) are given
executable models faithful to their documented semantics, the bounded frame
queue models Python's queue.Queue, and the Main.run / FrameGrabber.run loops
are embedded as explicit state-passing functions over the finite list of
frames the producer delivers.  Blocking calls (queue get on an empty queue,
queue put on a full queue) are modelled as explicit outcomes rather than
divergence.
-/

namespace BombusCV

/-- Grayscale image: a list of rows, each row a list of 8-bit intensities
(represented as natural numbers). -/
abbrev Gray : Type := List (List Nat)

/-- Color image in BGR channel order: a list of rows of (blue, green, red)
triples, as produced by the OpenCV capture used in src/main.py. -/
abbrev Color : Type := List (List (Nat × Nat × Nat))

/-- Absolute difference of two natural numbers, the per-channel operation of
cv.absdiff. -/
def natAbsdiff (a b : Nat) : Nat := max a b - min a b

/-- Model of cv.absdiff on two BGR images (src/main.py line 215): pixel-wise,
channel-wise absolute difference.  Rows and pixels are paired positionally. -/
def absdiff (a b : Color) : Color :=
  List.zipWith
    (fun ra rb =>
      List.zipWith
        (fun pa pb =>
          (natAbsdiff pa.1 pb.1, natAbsdiff pa.2.1 pb.2.1,
            natAbsdiff pa.2.2 pb.2.2))
        ra rb)
    a b

/-- Model of cv.cvtColor with COLOR_BGR2GRAY (src/main.py line 216): OpenCV's
fixed-point luma formula, gray = (B*1868 + G*9617 + R*4899 + 8192) >> 14. -/
def cvtColorBGR2GRAY (img : Color) : Gray :=
  img.map (fun row =>
    row.map (fun p => (p.1 * 1868 + p.2.1 * 9617 + p.2.2 * 4899 + 8192) / 16384))

/-- Pixel access with out-of-range reads giving intensity 0 (border padding).
The claims proved below depend only on zero padding preserving the all-zero
image, not on the exact border mode. -/
def getPx (img : Gray) (i j : Int) : Nat :=
  if 0 ≤ i ∧ 0 ≤ j then ((img.getD i.toNat []).getD j.toNat 0) else 0

/-- Binomial weight row of length 21 (central binomial coefficients), the
discrete approximation of the 1-D Gaussian used by the blur model. -/
def gaussWeights : List Nat := (List.range 21).map (fun k => Nat.choose 20 k)

/-- Height of an image (number of rows). -/
def imgH (img : Gray) : Nat := img.length

/-- Width of an image (length of its first row; rows are rectangular in every
image the pipeline produces). -/
def imgW (img : Gray) : Nat := (img.headD []).length

/-- Build an image of the given dimensions from a pixel function. -/
def mkImg (h w : Nat) (f : Nat → Nat → Nat) : Gray :=
  (List.range h).map (fun i => (List.range w).map (fun j => f i j))

/-- Weighted 21×21 window sum centred at (i, j) with the separable binomial
weights, used by the blur model. -/
def blurAt (img : Gray) (i j : Nat) : Nat :=
  ((List.range 21).map (fun a =>
    ((List.range 21).map (fun b =>
      gaussWeights.getD a 0 * gaussWeights.getD b 0 *
        getPx img ((i : Int) + a - 10) ((j : Int) + b - 10))).sum)).sum

/-- Model of cv.GaussianBlur with a 21×21 kernel (src/main.py line 217):
normalized convolution with separable nonnegative weights.  The exact
floating-point Gaussian weights of the external primitive are approximated by
binomial weights; the claims below use only the kernel size, nonnegativity
and normalization (an all-zero input blurs to an all-zero output). -/
def gaussianBlur21 (img : Gray) : Gray :=
  mkImg (imgH img) (imgW img) (fun i j => blurAt img i j / (1048576 * 1048576))

/-- Model of cv.threshold with THRESH_BINARY (src/main.py line 218): pixels
strictly above the threshold become maxval, all others 0. -/
def threshold (thresh maxval : Nat) (img : Gray) : Gray :=
  img.map (fun row => row.map (fun v => if thresh < v then maxval else 0))

/-- Maximum of a 3×3 neighbourhood, the effect of one dilation step with the
default (None → 3×3 rectangular) structuring element of cv.dilate. -/
def dilateAt (img : Gray) (i j : Nat) : Nat :=
  ((List.range 3).map (fun a =>
    ((List.range 3).map (fun b =>
      getPx img ((i : Int) + a - 1) ((j : Int) + b - 1))).foldr max 0)).foldr max 0

/-- One dilation pass over the whole image. -/
def dilateOnce (img : Gray) : Gray :=
  mkImg (imgH img) (imgW img) (fun i j => dilateAt img i j)

/-- Model of cv.dilate with kernel None and the given iteration count
(src/main.py line 219). -/
def dilate (iterations : Nat) (img : Gray) : Gray :=
  match iterations with
  | 0 => img
  | n + 1 => dilate n (dilateOnce img)

/-- Positions (row, column) of the nonzero pixels of a mask, in scan order. -/
def nonzeroPositions (img : Gray) : List (Nat × Nat) :=
  (List.range img.length).flatMap (fun i =>
    (List.range ((img.getD i []).length)).filterMap (fun j =>
      if (img.getD i []).getD j 0 ≠ 0 then some (i, j) else none))

/-- Eight-connectivity of two pixel positions: distinct and within distance
one in each coordinate. -/
def adjacent (p q : Nat × Nat) : Bool :=
  decide (p ≠ q) && decide (natAbsdiff p.1 q.1 ≤ 1) &&
    decide (natAbsdiff p.2 q.2 ≤ 1)

/-- Group a list of pixel positions into its connected components: each
position either joins (and merges) the groups it is adjacent to, or starts a
new group. -/
def groupComponents : List (Nat × Nat) → List (List (Nat × Nat))
  | [] => []
  | p :: rest =>
    let gs := groupComponents rest
    let split := gs.partition (fun g => g.any (fun q => adjacent p q))
    (p :: split.1.flatten) :: split.2

/-- Model of cv.findContours with RETR_EXTERNAL (src/main.py lines 220-222):
the connected regions of the nonzero pixels of the binary mask.  The program
uses only the emptiness of the result, which this model decides exactly: the
region list is nonempty iff the mask has a nonzero pixel. -/
def findContours (mask : Gray) : List (List (Nat × Nat)) :=
  groupComponents (nonzeroPositions mask)

/-- Embedding of Main._motion_detected (src/main.py lines 214-223): the
pipeline absdiff → BGR-to-gray → 21×21 blur → binary threshold at 30/255 →
dilate 3 iterations → external contours, returning the contour list. -/
def motion_detected (prev_frame frame : Color) : List (List (Nat × Nat)) :=
  findContours
    (dilate 3
      (threshold 30 255
        (gaussianBlur21
          (cvtColorBGR2GRAY (absdiff prev_frame frame)))))

/-- Boolean verdict the controller branches on (src/main.py line 249): Python
truthiness of the contour tuple, that is, nonemptiness of the contour list. -/
def motionVerdict (prev_frame frame : Color) : Bool :=
  !(motion_detected prev_frame frame).isEmpty

/-! ### Frame queue

Model of the bounded, blocking Python queue.Queue the producer and consumer
share (src/main.py line 49): put on a full queue and get on an empty queue
block, modelled as the value none. -/

/-- Bounded FIFO queue state: capacity and current items, oldest first. -/
structure BQueue (α : Type) where
  cap : Nat
  items : List α
deriving Repr, DecidableEq

/-- Fresh empty queue of the given capacity, as built by Queue(10000). -/
def BQueue.empty (α : Type) (cap : Nat) : BQueue α := ⟨cap, []⟩

/-- Model of Queue.put: appends when a slot is free; none models the producer
blocking on a full queue (frames are never discarded). -/
def BQueue.push (q : BQueue α) (a : α) : Option (BQueue α) :=
  if q.items.length < q.cap then some ⟨q.cap, q.items ++ [a]⟩ else none

/-- Model of Queue.get: yields the oldest item; none models the consumer
blocking on an empty queue. -/
def BQueue.pop (q : BQueue α) : Option (α × BQueue α) :=
  match q.items with
  | [] => none
  | x :: xs => some (x, ⟨q.cap, xs⟩)

/-- Push a whole list in order; none as soon as one push blocks. -/
def pushAll (q : BQueue α) (l : List α) : Option (BQueue α) :=
  match l with
  | [] => some q
  | a :: rest =>
    match q.push a with
    | none => none
    | some q1 => pushAll q1 rest

/-- Pop n items in order; none if some pop blocks. -/
def popN (q : BQueue α) (n : Nat) : Option (List α × BQueue α) :=
  match n with
  | 0 => some ([], q)
  | m + 1 =>
    match q.pop with
    | none => none
    | some (x, q1) =>
      match popN q1 m with
      | none => none
      | some (l, q2) => some (x :: l, q2)

/-! ### Recording session controller (Main.run)

The consumer loop of src/main.py lines 242-258, embedded over the finite list
of frames the producer delivers before terminating.  The loop is parametric
in the frame type and in the motion verdict, so that the state-machine claims
quantify over arbitrary detector outcomes; the concrete program instantiates
the verdict with motionVerdict on the frame images. -/

/-- How an embedded run of the consumer loop ended. -/
inductive LoopExit where
  /-- Blocked forever in one of the two priming frames.get calls
  (src/main.py lines 245-246) because fewer than two frames ever arrive. -/
  | blockedPriming : LoopExit
  /-- Blocked forever in a frames.get inside the loop after the producer
  stopped delivering frames; the loop never observes any closure signal. -/
  | blockedOnPop : LoopExit
  /-- Modelling fuel exhausted (reachable only when duration × fps = 0, in
  which case the source loop spins without consuming frames). -/
  | fuelOut : LoopExit
deriving Repr, DecidableEq

/-- Observable trace of one embedded run of Main.run. -/
structure RunResult (F : Type) where
  /-- Frames passed to _write_frame, in order. -/
  writes : List F
  /-- (previous, current) pairs on which _motion_detected was evaluated, in
  order. -/
  evals : List (F × F)
  /-- Number of writer.release() calls performed by the loop body (Main.run
  contains none; release lives only in Main.stop). -/
  encoderReleases : Nat
  /-- How the run ended. -/
  exitKind : LoopExit
deriving Repr, DecidableEq

/-- Recording window of src/main.py lines 253-255: for durFrames iterations,
write the current frame then advance (prev := cur; cur := queue.get()).
Returns the frames written and, unless a get blocked, the final
(prev, cur, remaining queue). -/
def recordPhase (prev cur : F) (durFrames : Nat) (queue : List F) :
    List F × Option (F × F × List F) :=
  match durFrames with
  | 0 => ([], some (prev, cur, queue))
  | k + 1 =>
    match queue with
    | [] => ([cur], none)
    | q :: qs =>
      let step := recordPhase cur q k qs
      (cur :: step.1, step.2)

/-- Main consumer loop (src/main.py lines 248-258): evaluate motion on the
(prev, cur) pair; on motion, run the recording window; otherwise advance by
one frame.  Fuel bounds the number of while-iterations; the wrapper run
supplies enough fuel for every input whenever durFrames ≥ 1. -/
def mainLoop (motion : F → F → Bool) (durFrames : Nat) :
    Nat → F → F → List F → RunResult F
  | 0, _, _, _ => ⟨[], [], 0, .fuelOut⟩
  | fuel + 1, prev, cur, queue =>
    if motion prev cur then
      let phase := recordPhase prev cur durFrames queue
      match phase.2 with
      | none => ⟨phase.1, [(prev, cur)], 0, .blockedOnPop⟩
      | some (p1, c1, q1) =>
        let r := mainLoop motion durFrames fuel p1 c1 q1
        ⟨phase.1 ++ r.writes, (prev, cur) :: r.evals, r.encoderReleases,
          r.exitKind⟩
    else
      match queue with
      | [] => ⟨[], [(prev, cur)], 0, .blockedOnPop⟩
      | q :: qs =>
        let r := mainLoop motion durFrames fuel cur q qs
        ⟨r.writes, (prev, cur) :: r.evals, r.encoderReleases, r.exitKind⟩

/-- Embedding of Main.run (src/main.py lines 242-258): prime prev_frame and
frame with two gets, then loop.  The input list is the full sequence of
frames the producer ever enqueues; with durFrames ≥ 1 every loop iteration
consumes at least one queued frame, so input length + 1 fuel never runs
out. -/
def run (motion : F → F → Bool) (durFrames : Nat) (input : List F) :
    RunResult F :=
  match input with
  | f0 :: f1 :: rest => mainLoop motion durFrames (rest.length + 1) f0 f1 rest
  | _ => ⟨[], [], 0, .blockedPriming⟩

/-- Number of frames of the recording window (src/main.py line 253):
int(duration * fps). -/
def durationFrames (duration fps : Nat) : Nat := duration * fps

/-! ### Frame annotation (Main._write_frame)

The numpy frame buffers are mutable; _write_frame copies the current frame
and stamps the timestamp on the copy so that the buffer kept for the next
motion comparison is untouched.  Buffers are modelled as a heap of values
addressed by index, with frame.copy() allocating and cv.putText mutating in
place. -/

/-- Store of mutable image buffers; a frame holds an index into it. -/
structure Heap (α : Type) where
  bufs : List α
deriving Repr, DecidableEq

/-- Contents of buffer i, none when the index is dangling. -/
def Heap.read (h : Heap α) (i : Nat) : Option α := h.bufs[i]?

/-- Model of numpy ndarray.copy() (src/main.py line 228): allocate a fresh
buffer holding the same contents. -/
def Heap.copy (h : Heap α) (i : Nat) : Option (Heap α × Nat) :=
  match h.bufs[i]? with
  | none => none
  | some v => some (⟨h.bufs ++ [v]⟩, h.bufs.length)

/-- Model of cv.putText (src/main.py lines 230-238): mutates buffer i in
place, rendering the text on it.  The rendering itself (fixed position
(10, 40), FONT_HERSHEY_DUPLEX, size 1, white, stroke 2) is the external
primitive putText. -/
def Heap.putTextOn (putText : α → String → α) (h : Heap α) (i : Nat)
    (text : String) : Heap α :=
  match h.bufs[i]? with
  | none => h
  | some v => ⟨h.bufs.set i (putText v text)⟩

/-- Embedding of Main._write_frame (src/main.py lines 225-240): clone the
current frame buffer, stamp its capture timestamp on the clone, pass the
clone to writer.write.  Returns the heap after the call and the buffer id
handed to the encoder. -/
def write_frame (putText : α → String → α) (h : Heap α) (frameBuf : Nat)
    (dateTime : String) : Option (Heap α × Nat) :=
  match h.copy frameBuf with
  | none => none
  | some (h1, cloned) => some (h1.putTextOn putText cloned dateTime, cloned)

/-! ### Frame grabber (FrameGrabber.run) and resource release -/

/-- State of the cv.VideoCapture resource: frames remaining in the file,
whether the capture is open, and how many release() calls it has received.
Reading past the end of a file source returns a failed read (ret False,
frame None) and leaves isOpened() true. -/
structure CapSt (F : Type) where
  pending : List F
  opened : Bool
  releases : Nat
deriving Repr, DecidableEq

/-- Model of cv.VideoCapture.read (src/main.py line 138): the next frame, or
none (Python None) once the source is exhausted or closed. -/
def capRead (c : CapSt F) : Option F × CapSt F :=
  if c.opened then
    match c.pending with
    | [] => (none, c)
    | f :: fs => (some f, ⟨fs, c.opened, c.releases⟩)
  else (none, c)

/-- Model of cv.VideoCapture.release: closes the capture and counts the
call. -/
def capRelease (c : CapSt F) : CapSt F := ⟨c.pending, false, c.releases + 1⟩

/-- How an embedded producer loop ended. -/
inductive GrabExit where
  /-- The while condition cap.isOpened() turned false, ending the loop. -/
  | capClosed : GrabExit
  /-- Modelling fuel exhausted with the loop still iterating. -/
  | stillRunning : GrabExit
deriving Repr, DecidableEq

/-- Observable trace of one embedded run of FrameGrabber.run. -/
structure GrabResult (F : Type) where
  /-- Frame fields of the items enqueued on the frame queue, in order; none
  is the Python None frame a failed read produces. -/
  queued : List (Option F)
  /-- Capture state when the trace ends. -/
  cap : CapSt F
  /-- How the loop ended. -/
  exitKind : GrabExit
deriving Repr, DecidableEq

/-- Embedding of FrameGrabber.run (src/main.py lines 132-144): while the
capture is open, read a frame and enqueue it (timestamped); the read result
is enqueued whether or not the read succeeded.  Fuel bounds the number of
iterations observed. -/
def grabberRun (fuel : Nat) (c : CapSt F) : GrabResult F :=
  match fuel with
  | 0 => ⟨[], c, .stillRunning⟩
  | n + 1 =>
    if c.opened then
      let rd := capRead c
      let rest := grabberRun n rd.2
      ⟨rd.1 :: rest.queued, rest.cap, rest.exitKind⟩
    else ⟨[], c, .capClosed⟩

/-- Embedding of FrameGrabber.stop (src/main.py lines 146-151): release the
capture (and set the terminate event). -/
def grabberStop (c : CapSt F) : CapSt F := capRelease c

/-- State of the cv.VideoWriter resource. -/
structure WriterSt where
  opened : Bool
  releases : Nat
deriving Repr, DecidableEq

/-- Embedding of Main.stop (src/main.py lines 260-264): release the video
writer. -/
def mainStop (w : WriterSt) : WriterSt := ⟨false, w.releases + 1⟩

/-! ### Process startup (FrameGrabber.__init__ and main) -/

/-- Outcome of process startup. -/
inductive StartupResult where
  /-- The process terminated with the given exit status after printing the
  given diagnostic, before any thread was started. -/
  | exited (code : Nat) (diagnostic : String) : StartupResult
  /-- Startup completed: the capture reports the given isOpened() value and
  both the producer and the consumer threads were started. -/
  | running (capOpened : Bool) (consumerStarted : Bool) : StartupResult
deriving Repr, DecidableEq

/-- Embedding of the source selection of FrameGrabber.__init__ (src/main.py
lines 109-130): a provided video path that is not a file prints
"No video found" and calls the builtin exit(), which raises
SystemExit(None), terminating the process with status 0.  Otherwise a
capture is constructed and a capture that cannot be opened is not detected
here: cv.VideoCapture — on an existing file just as on the camera index —
signals failure only through isOpened(), whose value videoOpens and
cameraOpens supply. -/
def frameGrabberInit (video : Option String) (fileExists : String → Bool)
    (videoOpens : String → Bool) (cameraOpens : Bool) :
    Except (Nat × String) Bool :=
  match video with
  | some v =>
    if fileExists v then .ok (videoOpens v) else .error (0, "No video found")
  | none => .ok cameraOpens

/-- Embedding of main (src/main.py lines 267-279): construct the grabber
(which may exit the process), then construct the consumer and start both
threads; isOpened() is never consulted, so the threads start whatever the
capture's openness. -/
def mainStartup (video : Option String) (fileExists : String → Bool)
    (videoOpens : String → Bool) (cameraOpens : Bool) : StartupResult :=
  match frameGrabberInit video fileExists videoOpens cameraOpens with
  | .error e => .exited e.1 e.2
  | .ok opened => .running opened true

/-! ### Output format selection (Main._get_video_format) -/

/-- Model of cv.VideoWriter_fourcc applied to a four-character code. -/
def fourcc (s : List Char) : Nat :=
  match s with
  | [a, b, c, d] => a.toNat + b.toNat * 256 + c.toNat * 65536 + d.toNat * 16777216
  | _ => 0

/-- The VIDEO_FORMAT table of src/main.py lines 42-46: every entry is the
XVID fourcc. -/
def VIDEO_FORMAT : List (List Char × Nat) :=
  [("avi".toList, fourcc "XVID".toList),
    ("mp4".toList, fourcc "XVID".toList),
    ("mkv".toList, fourcc "XVID".toList)]

/-- Index of the last occurrence of a character in a list, if any. -/
def lastIdxOf (c : Char) : List Char → Option Nat
  | [] => none
  | x :: xs =>
    match lastIdxOf c xs with
    | some i => some (i + 1)
    | none => if x = c then some 0 else none

/-- Model of str.rfind for the path separator: index of the last '/' in the
path, -1 when absent. -/
def pySepIdx (p : List Char) : Int :=
  match lastIdxOf '/' p with
  | none => -1
  | some i => i

/-- Model of str.rfind for the extension separator: index of the last '.' in
the path, -1 when absent. -/
def pyDotIdx (p : List Char) : Int :=
  match lastIdxOf '.' p with
  | none => -1
  | some i => i

/-- Model of os.path.splitext (CPython genericpath._splitext with sep '/'
and extsep '.'): split at the last dot when it lies after the last
separator and the base name has a non-dot character before it; the
extension keeps its leading dot. -/
def pySplitext (p : List Char) : List Char × List Char :=
  if pySepIdx p < pyDotIdx p ∧
      (List.range p.length).any (fun k =>
        decide (pySepIdx p < (k : Int)) && decide ((k : Int) < pyDotIdx p) &&
          (p.getD k '.' != '.')) then
    (p.take (pyDotIdx p).toNat, p.drop (pyDotIdx p).toNat)
  else (p, [])

/-- Embedding of Main._get_video_format (src/main.py lines 200-206): look
the splitext extension up in VIDEO_FORMAT, defaulting to the "mkv" entry. -/
def get_video_format (filename : List Char) : Nat :=
  let ext := (pySplitext filename).2
  match VIDEO_FORMAT.lookup ext with
  | some f => f
  | none => (VIDEO_FORMAT.lookup "mkv".toList).getD 0

/-- Every pixel of a grayscale image is zero. -/
def AllZero (img : Gray) : Prop := ∀ r ∈ img, ∀ v ∈ r, v = 0

/-- Motion verdict used by the concrete state-machine scenario of the spec:
the first delivered pair (frames 0 and 1) shows motion, every other pair
does not. -/
def motionScenario : Nat → Nat → Bool := fun p c => p == 0 && c == 1

/-! ## Theorems -/

theorem natAbsdiff_self (a : Nat) : natAbsdiff a a = 0 := by
  simp [natAbsdiff]

theorem allZero_cvt_absdiff_self (F : Color) :
    AllZero (cvtColorBGR2GRAY (absdiff F F)) := by
  intro r hr v hv
  unfold cvtColorBGR2GRAY absdiff at hr
  rw [List.zipWith_same] at hr
  rw [List.map_map] at hr
  rcases List.mem_map.1 hr with ⟨r0, _, hr0⟩
  subst hr0
  simp only [Function.comp, List.zipWith_same, List.map_map] at hv
  rcases List.mem_map.1 hv with ⟨p0, _, hp0⟩
  simp [natAbsdiff_self] at hp0
  omega

theorem getD_zero_of_allZero (img : Gray) (h : AllZero img) (i j : Nat) :
    (img.getD i []).getD j 0 = 0 := by
  rcases hg : img[i]? with _ | row
  · simp [List.getD_eq_getElem?_getD, hg]
  · have hrow : row ∈ img := List.getElem?_mem hg
    rcases hj : row[j]? with _ | v
    · simp [List.getD_eq_getElem?_getD, hg, hj]
    · have hv : v ∈ row := List.getElem?_mem hj
      have := h row hrow v hv
      simp [List.getD_eq_getElem?_getD, hg, hj, this]

theorem getPx_allZero (img : Gray) (h : AllZero img) (i j : Int) :
    getPx img i j = 0 := by
  unfold getPx
  split
  · exact getD_zero_of_allZero img h _ _
  · rfl

theorem sum_zero_of_all_zero (l : List Nat) (h : ∀ x ∈ l, x = 0) : l.sum = 0 := by
  induction l with
  | nil => rfl
  | cons x xs ih =>
    have hx := h x (List.mem_cons_self x xs)
    have := ih (fun y hy => h y (List.mem_cons_of_mem x hy))
    simp [hx, this]

theorem allZero_mkImg_of_zero (h w : Nat) (f : Nat → Nat → Nat)
    (hf : ∀ i j, f i j = 0) : AllZero (mkImg h w f) := by
  intro r hr v hv
  unfold mkImg at hr
  rcases List.mem_map.1 hr with ⟨i, _, hi⟩
  subst hi
  rcases List.mem_map.1 hv with ⟨j, _, hj⟩
  subst hj
  exact hf i j

theorem allZero_gaussianBlur21 (img : Gray) (h : AllZero img) :
    AllZero (gaussianBlur21 img) := by
  apply allZero_mkImg_of_zero
  intro i j
  have hb : blurAt img i j = 0 := by
    unfold blurAt
    apply sum_zero_of_all_zero
    intro x hx
    rcases List.mem_map.1 hx with ⟨a, _, ha⟩
    subst ha
    apply sum_zero_of_all_zero
    intro y hy
    rcases List.mem_map.1 hy with ⟨b, _, hb⟩
    subst hb
    rw [getPx_allZero img h]
    ring
  simp [hb]

theorem allZero_threshold (img : Gray) (h : AllZero img) :
    AllZero (threshold 30 255 img) := by
  intro r hr v hv
  unfold threshold at hr
  rcases List.mem_map.1 hr with ⟨r0, hr0m, hr0⟩
  subst hr0
  rcases List.mem_map.1 hv with ⟨v0, hv0m, hv0⟩
  have := h r0 hr0m v0 hv0m
  subst hv0
  simp [this]

theorem foldr_max_zero (l : List Nat) (h : ∀ x ∈ l, x = 0) :
    l.foldr max 0 = 0 := by
  induction l with
  | nil => rfl
  | cons x xs ih =>
    have hx := h x (List.mem_cons_self x xs)
    have := ih (fun y hy => h y (List.mem_cons_of_mem x hy))
    simp [hx, this]

theorem allZero_dilateOnce (img : Gray) (h : AllZero img) :
    AllZero (dilateOnce img) := by
  apply allZero_mkImg_of_zero
  intro i j
  unfold dilateAt
  apply foldr_max_zero
  intro x hx
  rcases List.mem_map.1 hx with ⟨a, _, ha⟩
  subst ha
  apply foldr_max_zero
  intro y hy
  rcases List.mem_map.1 hy with ⟨b, _, hb⟩
  subst hb
  exact getPx_allZero img h _ _

theorem allZero_dilate (n : Nat) (img : Gray) (h : AllZero img) :
    AllZero (dilate n img) := by
  induction n generalizing img with
  | zero => exact h
  | succ m ih => exact ih (dilateOnce img) (allZero_dilateOnce img h)

theorem nonzeroPositions_allZero (img : Gray) (h : AllZero img) :
    nonzeroPositions img = [] := by
  unfold nonzeroPositions
  apply List.flatMap_eq_nil_iff.2
  intro i _
  apply List.filterMap_eq_nil_iff.2
  intro j _
  have hz := getD_zero_of_allZero img h i j
  rw [List.getD_eq_getElem?_getD, List.getD_eq_getElem?_getD] at hz
  simp [hz]

theorem groupComponents_eq_nil (l : List (Nat × Nat)) :
    groupComponents l = [] ↔ l = [] := by
  cases l with
  | nil => simp [groupComponents]
  | cons p rest => simp [groupComponents]


/-- C2: the Motion Detector applies, in order, absolute pixel-wise
difference, single-channel conversion, 21×21 blur, binary threshold at
30/255, dilation for 3 iterations, and external connected-region extraction;
motion is detected iff the extracted region set is nonempty, with no
minimum-area filter (the regions are nonempty exactly when the mask has any
nonzero pixel at all). -/
theorem claim_C2_motion_pipeline (prev cur : Color) :
    motion_detected prev cur =
      findContours
        (dilate 3
          (threshold 30 255
            (gaussianBlur21 (cvtColorBGR2GRAY (absdiff prev cur))))) ∧
    (motionVerdict prev cur = true ↔ motion_detected prev cur ≠ []) ∧
    (motion_detected prev cur ≠ [] ↔
      nonzeroPositions
        (dilate 3
          (threshold 30 255
            (gaussianBlur21 (cvtColorBGR2GRAY (absdiff prev cur))))) ≠ []) := by
  refine ⟨rfl, ?_, ?_⟩
  · simp [motionVerdict, List.isEmpty_iff]
  · unfold motion_detected findContours
    rw [not_iff_not]
    exact groupComponents_eq_nil _

/-- C3: on two identical frames the Motion Detector always reports no
motion. -/
theorem claim_C3_identical_frames_no_motion (F : Color) :
    motionVerdict F F = false := by
  have hz :
      AllZero
        (dilate 3
          (threshold 30 255
            (gaussianBlur21 (cvtColorBGR2GRAY (absdiff F F))))) :=
    allZero_dilate 3 _
      (allZero_threshold _
        (allZero_gaussianBlur21 _ (allZero_cvt_absdiff_self F)))
  have hnz := nonzeroPositions_allZero _ hz
  have hmd : motion_detected F F = [] := by
    unfold motion_detected findContours
    rw [hnz]
    rfl
  unfold motionVerdict
  rw [hmd]
  rfl

theorem lastIdxOf_sound (c : Char) :
    ∀ (l : List Char) (i : Nat), lastIdxOf c l = some i → l[i]? = some c := by
  intro l
  induction l with
  | nil => intro i h; simp [lastIdxOf] at h
  | cons x xs ih =>
    intro i h
    cases hx : lastIdxOf c xs with
    | some j =>
      simp only [lastIdxOf, hx] at h
      cases h
      simpa using ih j hx
    | none =>
      by_cases hxc : x = c
      · simp only [lastIdxOf, hx, if_pos hxc] at h
        cases h
        simp [hxc]
      · simp only [lastIdxOf, hx, if_neg hxc] at h
        cases h

theorem pySepIdx_ge (p : List Char) : -1 ≤ pySepIdx p := by
  unfold pySepIdx
  cases lastIdxOf '/' p with
  | none => simp
  | some i =>
    show (-1 : Int) ≤ (i : Int)
    omega

theorem pySplitext_ext_shape (p : List Char) :
    (pySplitext p).2 = [] ∨ (pySplitext p).2.head? = some ('.' : Char) := by
  unfold pySplitext
  split
  · right
    rename_i hcond
    have hge := pySepIdx_ge p
    have hdpos : 0 ≤ pyDotIdx p := by
      have := hcond.1
      omega
    cases hdot : lastIdxOf '.' p with
    | none =>
      simp [pyDotIdx, hdot] at hdpos
    | some d =>
      have hdq : pyDotIdx p = d := by simp [pyDotIdx, hdot]
      rw [hdq, Int.toNat_natCast, List.head?_drop]
      exact lastIdxOf_sound '.' p d hdot
  · left
    rfl

theorem videoFormat_lookup_ext_none (p : List Char) :
    VIDEO_FORMAT.lookup (pySplitext p).2 = none := by
  rcases pySplitext_ext_shape p with h | h
  · rw [h]; rfl
  · cases hext : (pySplitext p).2 with
    | nil =>
      rw [hext] at h
      simp at h
    | cons c t =>
      rw [hext] at h
      simp only [List.head?] at h
      cases h
      simp [VIDEO_FORMAT, List.lookup]

/-- C10: for every output filename the chosen video format is the default
"mkv" entry: the extension produced by splitext keeps its leading dot, so it
never matches a key of VIDEO_FORMAT, and the selected fourcc is always
XVID. -/
theorem claim_C10_format_always_default (filename : List Char) :
    VIDEO_FORMAT.lookup (pySplitext filename).2 = none ∧
    get_video_format filename = fourcc "XVID".toList := by
  have h := videoFormat_lookup_ext_none filename
  refine ⟨h, ?_⟩
  simp only [get_video_format]
  rw [h]
  rfl



theorem pushAll_spec (l : List α) :
    ∀ q : BQueue α, q.items.length + l.length ≤ q.cap →
      pushAll q l = some ⟨q.cap, q.items ++ l⟩ := by
  induction l with
  | nil => intro q h; simp [pushAll]
  | cons a rest ih =>
    intro q h
    have hlt : q.items.length < q.cap := by
      simp at h
      omega
    unfold pushAll BQueue.push
    rw [if_pos hlt]
    show pushAll ⟨q.cap, q.items ++ [a]⟩ rest = some ⟨q.cap, q.items ++ a :: rest⟩
    rw [ih ⟨q.cap, q.items ++ [a]⟩ (by simp at h ⊢; omega)]
    simp

theorem popN_all (cap : Nat) (l : List α) :
    popN ⟨cap, l⟩ l.length = some (l, ⟨cap, []⟩) := by
  induction l with
  | nil => simp [popN]
  | cons a rest ih =>
    unfold popN BQueue.pop
    simp only [List.length_cons]
    rw [ih]

/-- C6: the Frame Queue is a bounded FIFO: pushing any sequence of at most
capacity many frames succeeds and popping returns them in the same order; a
push on a queue at capacity blocks (returns no queue, never discarding), a
successful push appends exactly the given frame, and a pop on an empty queue
blocks. -/
theorem claim_C6_queue_bounded_fifo (cap : Nat) (l : List Nat)
    (h : l.length ≤ cap) :
    (pushAll (BQueue.empty Nat cap) l = some ⟨cap, l⟩ ∧
      popN (⟨cap, l⟩ : BQueue Nat) l.length = some (l, ⟨cap, []⟩)) ∧
    (∀ (q : BQueue Nat) (a : Nat), q.push a = none ↔ q.cap ≤ q.items.length) ∧
    (∀ (q q2 : BQueue Nat) (a : Nat),
      q.push a = some q2 → q2.items = q.items ++ [a]) ∧
    (BQueue.empty Nat cap).pop = none := by
  refine ⟨⟨?_, popN_all cap l⟩, ?_, ?_, rfl⟩
  · have := pushAll_spec l (BQueue.empty Nat cap) (by simp [BQueue.empty]; omega)
    simpa [BQueue.empty] using this
  · intro q a
    unfold BQueue.push
    constructor
    · intro hnone
      by_contra hc
      rw [if_pos (by omega)] at hnone
      cases hnone
    · intro hge
      rw [if_neg (by omega)]
  · intro q q2 a hp
    unfold BQueue.push at hp
    split at hp
    · cases hp
      rfl
    · cases hp

/-- Witness for C6 at capacity 3 with the three frames 7, 8, 9. -/
theorem claim_C6_queue_bounded_fifo_witness :
    ([7, 8, 9] : List Nat).length ≤ 3 ∧
    ((pushAll (BQueue.empty Nat 3) [7, 8, 9] = some ⟨3, [7, 8, 9]⟩ ∧
      popN (⟨3, [7, 8, 9]⟩ : BQueue Nat) ([7, 8, 9] : List Nat).length =
        some ([7, 8, 9], ⟨3, []⟩)) ∧
    (∀ (q : BQueue Nat) (a : Nat), q.push a = none ↔ q.cap ≤ q.items.length) ∧
    (∀ (q q2 : BQueue Nat) (a : Nat),
      q.push a = some q2 → q2.items = q.items ++ [a]) ∧
    (BQueue.empty Nat 3).pop = none) :=
  ⟨by decide, claim_C6_queue_bounded_fifo 3 [7, 8, 9] (by decide)⟩



/-- C1: with fps=10 and duration=3, after priming, one motion pair followed
by 50 non-motion pairs yields exactly 30 frames (duration × fps, frames 1
through 30, counting the triggering frame) written to the encoder; motion is
evaluated on the priming pair (0, 1) and only re-evaluated from the pair
(30, 31) on, i.e. evaluation resumes with frame 31 and the controller is
back in IDLE stepping one frame at a time. -/
theorem claim_C1_state_machine_scenario :
    (run motionScenario (durationFrames 3 10) (List.range 52)).writes =
      List.range' 1 30 ∧
    (List.range' 1 30).length = 30 ∧
    (run motionScenario (durationFrames 3 10) (List.range 52)).evals =
      (0, 1) :: (List.range' 30 21).map (fun i => (i, i + 1)) := by
  refine ⟨by decide, by decide, by decide⟩

theorem recordPhase_writes_subset (k : Nat) :
    ∀ (prev cur : F) (queue : List F),
      (recordPhase prev cur k queue).1 ⊆ cur :: queue := by
  induction k with
  | zero => intro prev cur queue; simp [recordPhase]
  | succ m ih =>
    intro prev cur queue
    cases queue with
    | nil => simp [recordPhase]
    | cons x xs =>
      unfold recordPhase
      intro y hy
      rcases List.mem_cons.1 hy with h | h
      · exact h ▸ List.mem_cons_self cur (x :: xs)
      · exact List.mem_cons_of_mem cur (ih cur x xs h)

theorem recordPhase_state_subset (k : Nat) :
    ∀ (prev cur p1 c1 : F) (queue q1 : List F),
      (recordPhase prev cur k queue).2 = some (p1, c1, q1) →
        c1 :: q1 ⊆ cur :: queue := by
  induction k with
  | zero =>
    intro prev cur p1 c1 queue q1 h
    simp [recordPhase] at h
    rw [h.2.1, h.2.2]
    exact fun y hy => hy
  | succ m ih =>
    intro prev cur p1 c1 queue q1 h
    cases queue with
    | nil => simp [recordPhase] at h
    | cons x xs =>
      unfold recordPhase at h
      exact fun y hy => List.mem_cons_of_mem cur (ih cur x p1 c1 xs q1 h hy)

theorem recordPhase_state_length (k : Nat) :
    ∀ (prev cur p1 c1 : F) (queue q1 : List F),
      (recordPhase prev cur k queue).2 = some (p1, c1, q1) →
        queue.length = q1.length + k := by
  induction k with
  | zero =>
    intro prev cur p1 c1 queue q1 h
    simp [recordPhase] at h
    rw [h.2.2]
    omega
  | succ m ih =>
    intro prev cur p1 c1 queue q1 h
    cases queue with
    | nil => simp [recordPhase] at h
    | cons x xs =>
      unfold recordPhase at h
      have := ih cur x p1 c1 xs q1 h
      simp only [List.length_cons, this]
      omega

theorem mainLoop_writes_subset (motion : F → F → Bool) (dur : Nat) :
    ∀ (fuel : Nat) (prev cur : F) (queue : List F),
      (mainLoop motion dur fuel prev cur queue).writes ⊆ cur :: queue := by
  intro fuel
  induction fuel with
  | zero =>
    intro prev cur queue y hy
    simp [mainLoop] at hy
  | succ n ih =>
    intro prev cur queue
    unfold mainLoop
    by_cases hm : motion prev cur
    · rw [if_pos hm]
      dsimp only
      cases hph : (recordPhase prev cur dur queue).2 with
      | none =>
        show (recordPhase prev cur dur queue).1 ⊆ cur :: queue
        exact recordPhase_writes_subset dur prev cur queue
      | some st =>
        rcases st with ⟨p1, c1, q1⟩
        show (recordPhase prev cur dur queue).1 ++
            (mainLoop motion dur n p1 c1 q1).writes ⊆ cur :: queue
        intro y hy
        rcases List.mem_append.1 hy with h | h
        · exact recordPhase_writes_subset dur prev cur queue h
        · exact recordPhase_state_subset dur prev cur p1 c1 queue q1 hph
            (ih p1 c1 q1 h)
    · rw [if_neg hm]
      dsimp only
      cases queue with
      | nil =>
        intro y hy
        simp at hy
      | cons x xs =>
        show (mainLoop motion dur n cur x xs).writes ⊆ cur :: x :: xs
        exact fun y hy => List.mem_cons_of_mem cur (ih cur x xs hy)



theorem mainLoop_encoderReleases_zero (motion : F → F → Bool) (dur : Nat) :
    ∀ (fuel : Nat) (prev cur : F) (queue : List F),
      (mainLoop motion dur fuel prev cur queue).encoderReleases = 0 := by
  intro fuel
  induction fuel with
  | zero => intro prev cur queue; rfl
  | succ n ih =>
    intro prev cur queue
    unfold mainLoop
    by_cases hm : motion prev cur
    · rw [if_pos hm]
      dsimp only
      cases hph : (recordPhase prev cur dur queue).2 with
      | none => rfl
      | some st =>
        rcases st with ⟨p1, c1, q1⟩
        show (mainLoop motion dur n p1 c1 q1).encoderReleases = 0
        exact ih p1 c1 q1
    · rw [if_neg hm]
      dsimp only
      cases queue with
      | nil => rfl
      | cons x xs =>
        show (mainLoop motion dur n cur x xs).encoderReleases = 0
        exact ih cur x xs

theorem mainLoop_evals_head (motion : F → F → Bool) (dur n : Nat)
    (prev cur : F) (queue : List F) :
    (mainLoop motion dur (n + 1) prev cur queue).evals.head? =
      some (prev, cur) := by
  unfold mainLoop
  by_cases hm : motion prev cur
  · rw [if_pos hm]
    dsimp only
    cases hph : (recordPhase prev cur dur queue).2 with
    | none => rfl
    | some st =>
      rcases st with ⟨p1, c1, q1⟩
      rfl
  · rw [if_neg hm]
    dsimp only
    cases queue with
    | nil => rfl
    | cons x xs => rfl

theorem mainLoop_exit_blocked (motion : F → F → Bool) (dur : Nat)
    (hdur : 1 ≤ dur) :
    ∀ (fuel : Nat) (prev cur : F) (queue : List F), queue.length < fuel →
      (mainLoop motion dur fuel prev cur queue).exitKind = .blockedOnPop := by
  intro fuel
  induction fuel with
  | zero => intro prev cur queue h; exact absurd h (Nat.not_lt_zero _)
  | succ n ih =>
    intro prev cur queue hlen
    unfold mainLoop
    by_cases hm : motion prev cur
    · rw [if_pos hm]
      dsimp only
      cases hph : (recordPhase prev cur dur queue).2 with
      | none => rfl
      | some st =>
        rcases st with ⟨p1, c1, q1⟩
        show (mainLoop motion dur n p1 c1 q1).exitKind = .blockedOnPop
        apply ih
        have := recordPhase_state_length dur prev cur p1 c1 queue q1 hph
        omega
    · rw [if_neg hm]
      dsimp only
      cases queue with
      | nil => rfl
      | cons x xs =>
        show (mainLoop motion dur n cur x xs).exitKind = .blockedOnPop
        apply ih
        simp at hlen
        omega

/-- C4: the first frame consumed can never by itself trigger a transition or
a write: with fewer than two frames the controller blocks priming and
nothing is evaluated or written; with at least two frames, the first motion
evaluation is on the pair of the first two frames, and every frame ever
written is drawn from the second frame onward. -/
theorem claim_C4_priming_pair (motion : F → F → Bool) (dur : Nat)
    (f f0 f1 : F) (rest : List F) :
    run motion dur ([] : List F) = ⟨[], [], 0, .blockedPriming⟩ ∧
    run motion dur [f] = ⟨[], [], 0, .blockedPriming⟩ ∧
    (run motion dur (f0 :: f1 :: rest)).evals.head? = some (f0, f1) ∧
    (run motion dur (f0 :: f1 :: rest)).writes ⊆ f1 :: rest := by
  refine ⟨rfl, rfl, ?_, ?_⟩
  · exact mainLoop_evals_head motion dur rest.length f0 f1 rest
  · exact mainLoop_writes_subset motion dur (rest.length + 1) f0 f1 rest

/-- C7 is refuted on the code: after the producer has terminated (here a
source that delivered frames 5, 6, 7 and then closed), the consumer ends
blocked on the queue get — there is no source-closed signal in the program —
and the run loop has performed zero encoder releases, so the encoder is not
released before exit. -/
theorem claim_C7_counterexample :
    (run motionScenario (durationFrames 3 10) [5, 6, 7]).exitKind =
      LoopExit.blockedOnPop ∧
    (run motionScenario (durationFrames 3 10) [5, 6, 7]).encoderReleases = 0 := by
  refine ⟨by decide, by decide⟩

/-- C7 as amended: if the producer terminates while the consumer is blocked
on pop, the consumer is never unblocked — Main.run blocks forever either
while priming or in a queue get — and the loop itself never releases the
output encoder (release exists only in the external Main.stop). -/
theorem claim_C7_amended_no_close_signal (motion : F → F → Bool) (dur : Nat)
    (input : List F) (hdur : 1 ≤ dur) :
    (run motion dur input).encoderReleases = 0 ∧
    ((run motion dur input).exitKind = .blockedPriming ∨
      (run motion dur input).exitKind = .blockedOnPop) := by
  constructor
  · cases input with
    | nil => rfl
    | cons f0 t =>
      cases t with
      | nil => rfl
      | cons f1 rest =>
        exact mainLoop_encoderReleases_zero motion dur (rest.length + 1)
          f0 f1 rest
  · cases input with
    | nil => left; rfl
    | cons f0 t =>
      cases t with
      | nil => left; rfl
      | cons f1 rest =>
        right
        exact mainLoop_exit_blocked motion dur hdur (rest.length + 1)
          f0 f1 rest (by omega)

/-- Witness for the amended C7 at duration 3 s × 10 fps and a three-frame
source. -/
theorem claim_C7_amended_no_close_signal_witness :
    1 ≤ durationFrames 3 10 ∧
    ((run motionScenario (durationFrames 3 10) [11, 12, 13]).encoderReleases = 0 ∧
      ((run motionScenario (durationFrames 3 10) [11, 12, 13]).exitKind =
          LoopExit.blockedPriming ∨
        (run motionScenario (durationFrames 3 10) [11, 12, 13]).exitKind =
          LoopExit.blockedOnPop)) :=
  ⟨by decide,
    claim_C7_amended_no_close_signal motionScenario (durationFrames 3 10)
      [11, 12, 13] (by decide)⟩



/-- C5: every frame written to the encoder is annotated on a clone: after
_write_frame, the original frame buffer (kept as the previous frame for the
next motion comparison) is bit-identical to its prior contents, while the
buffer handed to the encoder is a distinct buffer holding the annotated
image. -/
theorem claim_C5_stamp_on_clone (α : Type) (putText : α → String → α)
    (h : Heap α) (frameBuf : Nat) (dateTime : String)
    (hv : frameBuf < h.bufs.length) :
    ∃ (h2 : Heap α) (cloned : Nat) (v : α),
      write_frame putText h frameBuf dateTime = some (h2, cloned) ∧
      h.read frameBuf = some v ∧
      h2.read frameBuf = some v ∧
      cloned ≠ frameBuf ∧
      h2.read cloned = some (putText v dateTime) := by
  have hget : h.bufs[frameBuf]? = some h.bufs[frameBuf] :=
    List.getElem?_eq_getElem hv
  refine
    ⟨⟨(h.bufs ++ [h.bufs[frameBuf]]).set h.bufs.length
        (putText h.bufs[frameBuf] dateTime)⟩,
      h.bufs.length, h.bufs[frameBuf], ?_, hget, ?_, ?_, ?_⟩
  · unfold write_frame Heap.copy Heap.putTextOn
    rw [hget]
    dsimp only
    rw [List.getElem?_concat_length]
  · show ((h.bufs ++ [h.bufs[frameBuf]]).set h.bufs.length
        (putText h.bufs[frameBuf] dateTime))[frameBuf]? = _
    rw [List.getElem?_set_ne (by omega)]
    rw [List.getElem?_append_left hv]
    exact hget
  · omega
  · show ((h.bufs ++ [h.bufs[frameBuf]]).set h.bufs.length
        (putText h.bufs[frameBuf] dateTime))[h.bufs.length]? = _
    rw [List.getElem?_set_self (by simp)]

/-- Witness for C5 with a two-buffer heap and a length-counting annotation
function. -/
theorem claim_C5_stamp_on_clone_witness :
    0 < (Heap.mk [3, 5] : Heap Nat).bufs.length ∧
    (∃ (h2 : Heap Nat) (cloned : Nat) (v : Nat),
      write_frame (fun a s => a + s.length) ⟨[3, 5]⟩ 0 "ts" =
        some (h2, cloned) ∧
      (Heap.mk [3, 5]).read 0 = some v ∧
      h2.read 0 = some v ∧
      cloned ≠ 0 ∧
      h2.read cloned = some ((fun (a : Nat) (s : String) => a + s.length) v "ts")) :=
  ⟨by decide,
    claim_C5_stamp_on_clone Nat (fun a s => a + s.length) ⟨[3, 5]⟩ 0 "ts"
      (by decide)⟩

/-- C8 is refuted on the code: a missing video file makes the process print
"No video found" and exit with status 0 — Python's bare exit() raises
SystemExit(None), not a non-zero status; a camera that cannot be opened is
not detected at startup at all, the process proceeding to start the
consumer; and an existing video file whose capture fails to open (isOpened()
false) likewise starts the consumer. -/
theorem claim_C8_counterexample :
    mainStartup (some "v.mkv") (fun _ => false) (fun _ => false) true =
      StartupResult.exited 0 "No video found" ∧
    mainStartup none (fun _ => false) (fun _ => false) false =
      StartupResult.running false true ∧
    mainStartup (some "v.mkv") (fun _ => true) (fun _ => false) true =
      StartupResult.running false true :=
  ⟨rfl, rfl, rfl⟩

/-- C8 as amended: with a video path whose file is missing, the process
prints the diagnostic and exits with status 0 before any thread is started
(the consumer is never constructed); with an existing video file, startup
never exits and both threads are started with whatever openness the capture
reports (an unopenable file goes undetected, isOpened() being unchecked);
with a camera source, startup likewise never exits — both threads are
started even when the camera cannot be opened. -/
theorem claim_C8_amended_startup (v : String) (fe : String → Bool)
    (vo : String → Bool) (cam : Bool) :
    (fe v = false →
      mainStartup (some v) fe vo cam =
        StartupResult.exited 0 "No video found") ∧
    (fe v = true →
      mainStartup (some v) fe vo cam = StartupResult.running (vo v) true) ∧
    mainStartup none fe vo cam = StartupResult.running cam true := by
  refine ⟨?_, ?_, rfl⟩
  · intro hfe
    simp [mainStartup, frameGrabberInit, hfe]
  · intro hfe
    simp [mainStartup, frameGrabberInit, hfe]

/-- Witness for the amended C8: a missing file exits with status 0; an
existing file whose capture does not open still reaches the running state
with the consumer started; a camera that fails to open does too. -/
theorem claim_C8_amended_startup_witness :
    mainStartup (some "v.mkv") (fun _ => false) (fun _ => false) false =
      StartupResult.exited 0 "No video found" ∧
    mainStartup (some "v.mkv") (fun _ => true) (fun _ => false) false =
      StartupResult.running false true ∧
    mainStartup none (fun _ => false) (fun _ => false) false =
      StartupResult.running false true :=
  ⟨(claim_C8_amended_startup "v.mkv" (fun _ => false) (fun _ => false)
      false).1 rfl,
    (claim_C8_amended_startup "v.mkv" (fun _ => true) (fun _ => false)
      false).2.1 rfl,
    (claim_C8_amended_startup "v.mkv" (fun _ => true) (fun _ => false)
      false).2.2⟩

theorem grabberRun_exhausted (extra r : Nat) :
    grabberRun extra (⟨[], true, r⟩ : CapSt F) =
      ⟨List.replicate extra none, ⟨[], true, r⟩, .stillRunning⟩ := by
  induction extra with
  | zero => rfl
  | succ n ih => simp [grabberRun, capRead, ih, List.replicate_succ]

theorem grabberRun_spin (fs : List F) :
    ∀ (extra r : Nat),
      grabberRun (fs.length + extra) ⟨fs, true, r⟩ =
        ⟨fs.map some ++ List.replicate extra none, ⟨[], true, r⟩,
          .stillRunning⟩ := by
  induction fs with
  | nil =>
    intro extra r
    simpa using grabberRun_exhausted extra r
  | cons f rest ih =>
    intro extra r
    have harith : (f :: rest).length + extra = (rest.length + extra) + 1 := by
      simp
      omega
    rw [harith]
    simp [grabberRun, capRead, ih extra r]

theorem run_encoderReleases_zero (motion : F → F → Bool) (dur : Nat)
    (input : List F) : (run motion dur input).encoderReleases = 0 := by
  cases input with
  | nil => rfl
  | cons f0 t =>
    cases t with
    | nil => rfl
    | cons f1 rest =>
      exact mainLoop_encoderReleases_zero motion dur (rest.length + 1)
        f0 f1 rest

/-- C9 is refuted on the code: a source that hits EndOfSource after two
frames does not end the producer loop — cap.isOpened() stays true at end of
file, so with three more iterations the loop is still running, enqueuing
empty (None) frames — and neither the capture nor the encoder has received
any release call. -/
theorem claim_C9_counterexample :
    grabberRun 5 (⟨[7, 8], true, 0⟩ : CapSt Nat) =
      ⟨[some 7, some 8, none, none, none], ⟨[], true, 0⟩, .stillRunning⟩ ∧
    (grabberRun 5 (⟨[7, 8], true, 0⟩ : CapSt Nat)).cap.releases = 0 ∧
    (run motionScenario (durationFrames 3 10) [7, 8]).encoderReleases = 0 :=
  ⟨by decide, by decide, by decide⟩

/-- C9 as amended: on EndOfSource after K frames the producer loop does not
end and performs no release — it spins, enqueuing a None frame per
iteration, with the capture still open and its release count unchanged; the
consumer loop likewise performs no encoder release; one release per resource
happens only when FrameGrabber.stop and Main.stop are called explicitly,
each releasing its resource exactly once. -/
theorem claim_C9_amended_no_release (fs : List Nat) (extra r : Nat)
    (c : CapSt Nat) (w : WriterSt) (motion : Nat → Nat → Bool) (dur : Nat)
    (input : List Nat) :
    grabberRun (fs.length + extra) ⟨fs, true, r⟩ =
      ⟨fs.map some ++ List.replicate extra none, ⟨[], true, r⟩,
        .stillRunning⟩ ∧
    (grabberStop c).releases = c.releases + 1 ∧
    (grabberStop c).opened = false ∧
    (mainStop w).releases = w.releases + 1 ∧
    (run motion dur input).encoderReleases = 0 :=
  ⟨grabberRun_spin fs extra r, rfl, rfl, rfl,
    run_encoderReleases_zero motion dur input⟩


end BombusCV
